import Mathlib

/-!
Shallow embedding of `src/01_basics/basic_operations.py`, a thin facade over
an OpenSearch client: a memoized client provider (`get_os_client`), an
idempotent index creator (`create_index_if_not_exists`), a bulk loader
(`bulk_index_metadata`) and a query runner (`query_index`).

Python dictionaries are modelled as association lists of `String × PyVal`
(lookup returns the first matching key; dict-literal construction with
`**doc` unpacking is modelled by `dictMerge`, later keys overriding earlier
ones).  The process environment, the `lru_cache` memo, the service's index
state and a heap of caller-owned document objects are all explicit state.
Network traffic is reified as a list of `Request` values.
-/

/-- Python runtime values, as far as this module manipulates them. -/
inductive PyVal where
  | none
  | bool (b : Bool)
  | int (n : Int)
  | str (s : String)
  | list (xs : List PyVal)
  | dict (entries : List (String × PyVal))
deriving Repr

/-- A Python dict body: an association list, first key wins on lookup. -/
abbrev Dict := List (String × PyVal)

/-- Python truthiness (`bool(v)`), for `or` and `if` on the values above. -/
def PyVal.truthy : PyVal → Bool
  | .none => false
  | .bool b => b
  | .int n => n != 0
  | .str s => !s.isEmpty
  | .list xs => !xs.isEmpty
  | .dict es => !es.isEmpty

/-- Python `a or b`: `a` when truthy, otherwise `b`. -/
def pyOr (a b : PyVal) : PyVal :=
  if a.truthy then a else b

/-- Lookup in a dict body (`d[k]` / `d.get(k)` without default). -/
def dictGet? : Dict → String → Option PyVal
  | [], _ => Option.none
  | e :: t, k => if e.1 = k then some e.2 else dictGet? t k

/-- Python `d.get(k, default)`. -/
def dictGetD (d : Dict) (k : String) (dflt : PyVal) : PyVal :=
  (dictGet? d k).getD dflt

/-- Writing key `k` in a dict: overrides any previous binding. -/
def dictSet (d : Dict) (k : String) (v : PyVal) : Dict :=
  (d.filter (fun p => p.1 != k)) ++ [(k, v)]

/-- Merge `{**base, **extra}`: entries of `extra` written into `base` in order,
overriding clashes — the semantics of `**doc` unpacking in a dict literal. -/
def dictMerge (base extra : Dict) : Dict :=
  extra.foldl (fun acc kv => dictSet acc kv.1 kv.2) base

/-! ### Client provider (`get_os_client`)

`get_os_client` reads `OPENSEARCH_HOST`, `OPENSEARCH_PORT` (default 443),
`OPENSEARCH_USER` and `OPENSEARCH_PASS` from the process environment, wraps
user/password in an `HTTPBasicAuth` and constructs an `OpenSearch` client
with TLS on, certificate verification on and a 30-second timeout.  It is
wrapped in `lru_cache(maxsize=1)`: the first successful construction is
cached for the rest of the process (exceptions are not cached).  -/
/-- Python exceptions this module can raise.  `configurationError` exists
only to state specification claims about it: the source never raises it. -/
inductive PyErr where
  | configurationError (msg : String)
  | valueError (msg : String)
  | attributeError (msg : String)
  | typeError (msg : String)
  | danglingRef (addr : Nat)
deriving Repr, DecidableEq

/-- The process environment: variable name to string value. -/
structure Env where
  vars : List (String × String)
deriving Repr, DecidableEq

/-- Embedding of `os.getenv(k)`. -/
def Env.getenv? (e : Env) (k : String) : Option String :=
  (e.vars.find? (fun p => p.1 == k)).map Prod.snd

/-- Embedding of `requests.auth.HTTPBasicAuth(user, password)`; the source passes the raw
`os.getenv` results, so both fields may be `none`. -/
structure HTTPBasicAuth where
  username : Option String
  password : Option String
deriving Repr, DecidableEq

/-- One entry of the `hosts=[{"host": host, "port": port}]` argument. -/
structure HostSpec where
  host : Option String
  port : Int
deriving Repr, DecidableEq

/-- The constructed client handle with the keyword arguments fixed by the
source: `use_ssl=True`, `verify_certs=True`, `timeout=30`. -/
structure OpenSearch where
  hosts : List HostSpec
  http_auth : HTTPBasicAuth
  use_ssl : Bool
  verify_certs : Bool
  timeout : Nat
deriving Repr, DecidableEq

/-- Process-level state: the `lru_cache(maxsize=1)` memo of `get_os_client`
(the function takes no arguments, so the cache is a single optional slot). -/
structure ProcState where
  cache : Option OpenSearch
deriving Repr, DecidableEq

/-- Python `int(s)` on the string value of an environment variable. -/
def pyIntOfString (s : String) : Except PyErr Int :=
  match s.toInt? with
  | some n => Except.ok n
  | Option.none => Except.error (PyErr.valueError ("invalid literal for int: " ++ s))

/-- Embedding of `int(os.getenv("OPENSEARCH_PORT", 443))`: the default `443` is already an
int; a set variable goes through `int(·)` and can raise `ValueError`. -/
def readPort (env : Env) : Except PyErr Int :=
  match env.getenv? "OPENSEARCH_PORT" with
  | some s => pyIntOfString s
  | Option.none => Except.ok 443

/-- The body of `get_os_client` (the construction that runs on a cache miss):
read the four variables and build the client.  No validation is performed
and no network request is issued; missing variables flow through as `none`. -/
def buildClient (env : Env) : Except PyErr OpenSearch :=
  match readPort env with
  | Except.error e => Except.error e
  | Except.ok port =>
      Except.ok
        { hosts := [{ host := env.getenv? "OPENSEARCH_HOST", port := port }]
          http_auth :=
            { username := env.getenv? "OPENSEARCH_USER"
              password := env.getenv? "OPENSEARCH_PASS" }
          use_ssl := true
          verify_certs := true
          timeout := 30 }

/-- A network request to the search service, reified. -/
inductive Request where
  | indicesExists (index : String)
  | indicesCreate (index : String) (body : PyVal)
  | bulk (actions : List Dict) (refresh : Bool)
  | search (index : String) (body : Dict)
deriving Repr

/-- Result of a `get_os_client()` call: the returned value (or exception),
the process state afterwards, and every network request issued during it. -/
structure GetClientResult where
  result : Except PyErr OpenSearch
  proc : ProcState
  requests : List Request
deriving Repr

/-- Embedding of `get_os_client()` under `lru_cache(maxsize=1)`: return the cached client
if there is one; otherwise run the body and cache a successful result
(exceptions are not cached).  Client construction contacts no server. -/
def get_os_client (env : Env) (st : ProcState) : GetClientResult :=
  match st.cache with
  | some c => { result := Except.ok c, proc := st, requests := [] }
  | Option.none =>
      match buildClient env with
      | Except.ok c => { result := Except.ok c, proc := { cache := some c }, requests := [] }
      | Except.error e => { result := Except.error e, proc := st, requests := [] }

/-! ### Shared plumbing of the three operations

Each of `create_index_if_not_exists`, `bulk_index_metadata` and
`query_index` takes `client: Optional[OpenSearch] = None` and starts with
`client = client or get_os_client()`.  The argument is modelled by
`ClientArg` (Python is untyped, so any value can be passed); the `or`
falls back to the provider exactly on falsy arguments. -/
/-- The value passed for the `client` parameter: omitted/`None`, an actual
client handle, or any other Python value. -/
inductive ClientArg where
  | noneV
  | client (c : OpenSearch)
  | other (v : PyVal)
deriving Repr

/-- Python truthiness of the `client` argument (objects are truthy). -/
def ClientArg.truthy : ClientArg → Bool
  | .noneV => false
  | .client _ => true
  | .other v => v.truthy

/-- The client handle carried by the argument, if it is one. -/
def ClientArg.asClient : ClientArg → Option OpenSearch
  | .client c => some c
  | _ => Option.none

/-- Embedding of `client = client or get_os_client()`: keep a truthy argument, otherwise
call the memoized provider (which may raise, e.g. `ValueError` on a bad
port variable). -/
def resolveClient (arg : ClientArg) (env : Env) (st : ProcState) :
    Except PyErr (ClientArg × ProcState) :=
  if arg.truthy then Except.ok (arg, st)
  else
    match get_os_client env st with
    | { result := Except.ok c, proc := st', requests := _ } =>
        Except.ok (ClientArg.client c, st')
    | { result := Except.error e, proc := _, requests := _ } =>
        Except.error e

/-- The search service's index state: index name to the mapping body it was
created with.  Document contents live behind the service's black-box search
contract and are not modelled. -/
structure ServiceState where
  indices : List (String × PyVal)
deriving Repr

/-- Embedding of `client.indices.exists(index=index_name)`: the service answers from its
authoritative index list. -/
def indexExists (svc : ServiceState) (index_name : String) : Bool :=
  (svc.indices.find? (fun p => p.1 == index_name)).isSome

/-- Service effect of `client.indices.create(index=..., body=...)`. -/
def indicesCreate (svc : ServiceState) (index_name : String) (body : PyVal) :
    ServiceState :=
  { indices := svc.indices ++ [(index_name, body)] }

/-- Messages written by the module's `print` calls, kept structured. -/
inductive PrintMsg where
  | createdIndex (index : String)
  | indexAlreadyExists (index : String)
  | indexedDocs (count : Nat) (index : String)
deriving Repr, DecidableEq

/-- A heap of caller-owned document objects: address to dict body.  Lookup
returns the first binding; allocation appends a fresh address. -/
structure Heap where
  store : List (Nat × Dict)
  next : Nat
deriving Repr

/-- First-match lookup in a heap store. -/
def heapFind : List (Nat × Dict) → Nat → Option Dict
  | [], _ => Option.none
  | e :: t, a => if e.1 = a then some e.2 else heapFind t a

/-- Dereference a document address. -/
def Heap.get? (h : Heap) (a : Nat) : Option Dict :=
  heapFind h.store a

/-- Allocate a fresh dict object (Python dict-literal evaluation). -/
def Heap.alloc (h : Heap) (d : Dict) : Heap :=
  { store := h.store ++ [(h.next, d)], next := h.next + 1 }

/-- Allocate a list of fresh dict objects in order. -/
def allocAll (h : Heap) : List Dict → Heap
  | [] => h
  | d :: t => allocAll (h.alloc d) t

/-! ### `create_index_if_not_exists` -/
/-- Result of a `create_index_if_not_exists` call. -/
structure CreateResult where
  ret : Except PyErr PyVal
  usedClient : Option OpenSearch
  proc : ProcState
  svc : ServiceState
  requests : List Request
  prints : List PrintMsg
deriving Repr

/-- Embedding of `create_index_if_not_exists(index_name, mapping, client=None)`: resolve
the client, ask the service whether the index exists, and create it with
the supplied mapping only when it does not.  A truthy non-client argument
raises when its `indices` attribute is accessed (as in Python). -/
def create_index_if_not_exists (index_name : String) (mapping : PyVal)
    (client : ClientArg) (env : Env) (proc : ProcState) (svc : ServiceState) :
    CreateResult :=
  match resolveClient client env proc with
  | Except.error e =>
      { ret := Except.error e, usedClient := Option.none, proc := proc,
        svc := svc, requests := [], prints := [] }
  | Except.ok (resolved, proc') =>
      match resolved.asClient with
      | Option.none =>
          { ret := Except.error (PyErr.attributeError "indices"),
            usedClient := Option.none, proc := proc', svc := svc,
            requests := [], prints := [] }
      | some c =>
          if indexExists svc index_name then
            { ret := Except.ok PyVal.none, usedClient := some c, proc := proc',
              svc := svc, requests := [Request.indicesExists index_name],
              prints := [PrintMsg.indexAlreadyExists index_name] }
          else
            { ret := Except.ok PyVal.none, usedClient := some c, proc := proc',
              svc := indicesCreate svc index_name mapping,
              requests := [Request.indicesExists index_name,
                           Request.indicesCreate index_name mapping],
              prints := [PrintMsg.createdIndex index_name] }

/-! ### `bulk_index_metadata` -/
/-- Embedding of `doc.get("contract_id") or doc.get("id")`: the `_id` value attached to a
document's action.  Python `or` tests truthiness, not presence. -/
def derivedId (doc : Dict) : PyVal :=
  pyOr (dictGetD doc "contract_id" PyVal.none) (dictGetD doc "id" PyVal.none)

/-- The per-document action dict literal
`{"_op_type": "index", "_index": index_name, "_id": ..., **doc}`:
the three control keys first, then the document's own entries, later
entries overriding earlier ones. -/
def buildAction (index_name : String) (doc : Dict) : Dict :=
  dictMerge
    [("_op_type", PyVal.str "index"),
     ("_index", PyVal.str index_name),
     ("_id", derivedId doc)]
    doc

/-- Dereference the caller's document addresses, in order.  A dangling
address cannot arise from Python and is reported as `danglingRef`. -/
def readDocs (heap : Heap) : List Nat → Except PyErr (List Dict)
  | [] => Except.ok []
  | a :: t =>
      match heap.get? a with
      | some d =>
          match readDocs heap t with
          | Except.ok r => Except.ok (d :: r)
          | Except.error e => Except.error e
      | Option.none => Except.error (PyErr.danglingRef a)

/-- Result of a `bulk_index_metadata` call. -/
structure BulkResult where
  ret : Except PyErr PyVal
  usedClient : Option OpenSearch
  proc : ProcState
  svc : ServiceState
  heap : Heap
  requests : List Request
  prints : List PrintMsg
deriving Repr

/-- Embedding of `bulk_index_metadata(index_name, docs, client=None)`: resolve the
client, build one action dict per document (a fresh dict each — the list
comprehension allocates, never mutates the inputs), submit them in a single
`helpers.bulk(client, actions, refresh=True)` call and print the count.
The function body has no `return`, so the call returns Python `None`. -/
def bulk_index_metadata (index_name : String) (docs : List Nat)
    (client : ClientArg) (env : Env) (proc : ProcState) (svc : ServiceState)
    (heap : Heap) : BulkResult :=
  match resolveClient client env proc with
  | Except.error e =>
      { ret := Except.error e, usedClient := Option.none, proc := proc,
        svc := svc, heap := heap, requests := [], prints := [] }
  | Except.ok (resolved, proc') =>
      match resolved.asClient with
      | Option.none =>
          { ret := Except.error (PyErr.typeError "not a client"),
            usedClient := Option.none, proc := proc', svc := svc,
            heap := heap, requests := [], prints := [] }
      | some c =>
          match readDocs heap docs with
          | Except.error e =>
              { ret := Except.error e, usedClient := some c, proc := proc',
                svc := svc, heap := heap, requests := [], prints := [] }
          | Except.ok ds =>
              let actions := ds.map (buildAction index_name)
              { ret := Except.ok PyVal.none, usedClient := some c,
                proc := proc', svc := svc, heap := allocAll heap actions,
                requests := [Request.bulk actions true],
                prints := [PrintMsg.indexedDocs actions.length index_name] }

/-! ### `query_index` -/
/-- Python `v.get(k, dflt)`: a method of dicts; any other receiver raises. -/
def pyGet (v : PyVal) (k : String) (dflt : PyVal) : Except PyErr PyVal :=
  match v with
  | PyVal.dict es => Except.ok (dictGetD es k dflt)
  | _ => Except.error (PyErr.attributeError "get")

/-- Whether a value is a dict. -/
def PyVal.isDict : PyVal → Bool
  | .dict _ => true
  | _ => false

/-- Total variant of `v.get(k, dflt)` for dict receivers. -/
def PyVal.getD (v : PyVal) (k : String) (dflt : PyVal) : PyVal :=
  match v with
  | .dict es => dictGetD es k dflt
  | _ => dflt

/-- Embedding of `[hit.get("_source", {}) for hit in hits]`. -/
def extractSources : List PyVal → Except PyErr (List PyVal)
  | [] => Except.ok []
  | h :: t =>
      match pyGet h "_source" (PyVal.dict []) with
      | Except.error e => Except.error e
      | Except.ok s =>
          match extractSources t with
          | Except.error e => Except.error e
          | Except.ok r => Except.ok (s :: r)

/-- Embedding of `resp.get("hits", {}).get("hits", [])`, then require a list to iterate
over (iterating anything else is not modelled). -/
def extractHits (resp : PyVal) : Except PyErr (List PyVal) :=
  match pyGet resp "hits" (PyVal.dict []) with
  | Except.error e => Except.error e
  | Except.ok hv =>
      match pyGet hv "hits" (PyVal.list []) with
      | Except.error e => Except.error e
      | Except.ok (PyVal.list hs) => Except.ok hs
      | Except.ok _ => Except.error (PyErr.typeError "not iterable")

/-- Result of a `query_index` call. -/
structure QueryResult where
  ret : Except PyErr PyVal
  usedClient : Option OpenSearch
  proc : ProcState
  requests : List Request
deriving Repr

/-- Embedding of `query_index(index_name, query_body, size=10, client=None)`: resolve the
client, build `{"size": size, "query": query_body}`, submit one search
request and map each returned hit to its `_source` (default `{}`).  `resp`
is the service's response to that request. -/
def query_index (index_name : String) (query_body : PyVal)
    (client : ClientArg) (env : Env) (proc : ProcState) (resp : PyVal)
    (size : Int := 10) : QueryResult :=
  match resolveClient client env proc with
  | Except.error e =>
      { ret := Except.error e, usedClient := Option.none, proc := proc,
        requests := [] }
  | Except.ok (resolved, proc') =>
      match resolved.asClient with
      | Option.none =>
          { ret := Except.error (PyErr.typeError "not a client"),
            usedClient := Option.none, proc := proc', requests := [] }
      | some c =>
          let body : Dict := [("size", PyVal.int size), ("query", query_body)]
          let extracted :=
            match extractHits resp with
            | Except.error e => Except.error e
            | Except.ok hs =>
                match extractSources hs with
                | Except.error e => Except.error e
                | Except.ok ss => Except.ok (PyVal.list ss)
          { ret := extracted, usedClient := some c, proc := proc',
            requests := [Request.search index_name body] }

/-! ### Concrete fixtures (the `__main__` example, abbreviated) -/
/-- An environment with all four variables set. -/
def envSample : Env :=
  { vars := [("OPENSEARCH_HOST", "localhost"),
             ("OPENSEARCH_USER", "admin"),
             ("OPENSEARCH_PASS", "secret")] }

/-- The client `buildClient` constructs from `envSample`. -/
def clientSample : OpenSearch :=
  { hosts := [{ host := some "localhost", port := 443 }]
    http_auth := { username := some "admin", password := some "secret" }
    use_ssl := true
    verify_certs := true
    timeout := 30 }

/-- An environment in which `OPENSEARCH_HOST` is unset. -/
def envNoHost : Env :=
  { vars := [("OPENSEARCH_USER", "admin"), ("OPENSEARCH_PASS", "secret")] }

/-- The client `buildClient` constructs from `envNoHost`: host `None`. -/
def clientNoHost : OpenSearch :=
  { hosts := [{ host := Option.none, port := 443 }]
    http_auth := { username := some "admin", password := some "secret" }
    use_ssl := true
    verify_certs := true
    timeout := 30 }

/-- First sample document of the `__main__` block (abbreviated). -/
def docC001 : Dict :=
  [("contract_id", PyVal.str "C-001"),
   ("title", PyVal.str "Alpha-Beta Agreement"),
   ("full_text", PyVal.str "Indemnity clause applies.")]

/-- Second sample document of the `__main__` block (abbreviated). -/
def docC002 : Dict :=
  [("contract_id", PyVal.str "C-002"),
   ("title", PyVal.str "Gamma Licence"),
   ("full_text", PyVal.str "Force majeure included.")]

/-- A heap holding the two sample documents at addresses 0 and 1. -/
def heapSample : Heap :=
  { store := [(0, docC001), (1, docC002)], next := 2 }

/-- Does a provider result carry a `ConfigurationError`? -/
def isConfigErr : Except PyErr OpenSearch → Bool
  | Except.error (PyErr.configurationError _) => true
  | _ => false

/-- Is a request a create-index call? -/
def isCreateReq : Request → Bool
  | Request.indicesCreate _ _ => true
  | _ => false

/-- A document that carries its own `_id`, `_index` and `_op_type` keys. -/
def docOverride : Dict :=
  [("_id", PyVal.str "custom"), ("_index", PyVal.str "other"),
   ("_op_type", PyVal.str "delete"), ("contract_id", PyVal.str "C-9")]

/-- A hit carrying metadata next to its stored fields. -/
def hitSample : PyVal :=
  PyVal.dict [("_index", PyVal.str "contracts_meta"),
              ("_id", PyVal.str "C-001"),
              ("_score", PyVal.int 1),
              ("_source", PyVal.dict docC001)]

/-- A service response with one hit. -/
def respSample : PyVal :=
  PyVal.dict [("took", PyVal.int 3),
              ("hits", PyVal.dict [("total", PyVal.dict [("value", PyVal.int 1)]),
                                   ("hits", PyVal.list [hitSample])])]

theorem dictGet_append (l₁ l₂ : Dict) (k : String) :
    dictGet? (l₁ ++ l₂) k =
      match dictGet? l₁ k with
      | some v => some v
      | Option.none => dictGet? l₂ k := by
  induction l₁ with
  | nil => simp [dictGet?]
  | cons e t ih =>
      by_cases h : e.1 = k
      · simp [dictGet?, h]
      · simp [dictGet?, h, ih]

theorem dictGet_filter_out_self (d : Dict) (k : String) :
    dictGet? (d.filter (fun p => p.1 != k)) k = Option.none := by
  induction d with
  | nil => simp [dictGet?]
  | cons e t ih =>
      by_cases h : e.1 = k
      · simp [List.filter_cons, h, ih]
      · have hb : (e.1 != k) = true := by simpa using h
        simp [List.filter_cons, hb, dictGet?, h, ih]

theorem dictGet_filter_out_other (d : Dict) (k k' : String) (h : k' ≠ k) :
    dictGet? (d.filter (fun p => p.1 != k)) k' = dictGet? d k' := by
  induction d with
  | nil => simp
  | cons e t ih =>
      by_cases he : e.1 = k
      · have hb : (e.1 != k) = false := by simpa using he
        have he' : ¬ e.1 = k' := by rw [he]; exact fun hkk => h hkk.symm
        simp [List.filter_cons, hb, dictGet?, he', ih]
      · have hb : (e.1 != k) = true := by simpa using he
        by_cases he' : e.1 = k'
        · simp [List.filter_cons, hb, dictGet?, he', fun hkk : k' = k => h hkk]
        · simp [List.filter_cons, hb, dictGet?, he', ih]

theorem dictGet_set_same (d : Dict) (k : String) (v : PyVal) :
    dictGet? (dictSet d k v) k = some v := by
  simp [dictSet, dictGet_append, dictGet_filter_out_self, dictGet?]

theorem dictGet_set_ne (d : Dict) (k k' : String) (v : PyVal) (h : k' ≠ k) :
    dictGet? (dictSet d k v) k' = dictGet? d k' := by
  rw [dictSet, dictGet_append, dictGet_filter_out_other d k k' h]
  cases hd : dictGet? d k' with
  | none =>
      have hne : ¬ k = k' := fun hkk => h hkk.symm
      simp [dictGet?, hne]
  | some v' => simp

theorem dictGet_none_of_not_mem (d : Dict) (k : String)
    (h : k ∉ d.map Prod.fst) : dictGet? d k = Option.none := by
  induction d with
  | nil => rfl
  | cons e t ih =>
      simp only [List.map_cons, List.mem_cons] at h
      push_neg at h
      have hne : ¬ e.1 = k := fun hk => h.1 hk.symm
      simp [dictGet?, hne, ih h.2]

theorem dictGet_merge_absent (base extra : Dict) (k : String)
    (h : dictGet? extra k = Option.none) :
    dictGet? (dictMerge base extra) k = dictGet? base k := by
  induction extra generalizing base with
  | nil => rfl
  | cons e t ih =>
      simp only [dictGet?] at h
      by_cases he : e.1 = k
      · simp [he] at h
      · simp only [he, if_false] at h
        simp only [dictMerge, List.foldl_cons] at ih ⊢
        rw [ih _ h, dictGet_set_ne _ _ _ _ (fun hk => he hk.symm)]

theorem dictGet_merge_present (base extra : Dict) (k : String) (v : PyVal)
    (hnd : (extra.map Prod.fst).Nodup) (h : dictGet? extra k = some v) :
    dictGet? (dictMerge base extra) k = some v := by
  induction extra generalizing base with
  | nil => simp [dictGet?] at h
  | cons e t ih =>
      simp only [List.map_cons, List.nodup_cons] at hnd
      simp only [dictGet?] at h
      simp only [dictMerge, List.foldl_cons] at ih ⊢
      by_cases he : e.1 = k
      · simp only [he, if_true] at h
        have ht : dictGet? t k = Option.none := by
          apply dictGet_none_of_not_mem
          rw [← he]; exact hnd.1
        rw [show (List.foldl (fun acc kv => dictSet acc kv.1 kv.2)
              (dictSet base e.1 e.2) t) = dictMerge (dictSet base e.1 e.2) t from rfl,
          dictGet_merge_absent _ _ _ ht, he, dictGet_set_same]
        exact h
      · simp only [he, if_false] at h
        exact ih _ hnd.2 h

/-! ### Helper lemmas -/

theorem readDocs_length (heap : Heap) (docs : List Nat) (ds : List Dict)
    (h : readDocs heap docs = Except.ok ds) : ds.length = docs.length := by
  induction docs generalizing ds with
  | nil => cases h; rfl
  | cons a t ih =>
      simp only [readDocs] at h
      cases ha : heap.get? a with
      | none => rw [ha] at h; cases h
      | some d =>
          rw [ha] at h
          cases ht : readDocs heap t with
          | error e => rw [ht] at h; cases h
          | ok r =>
              rw [ht] at h
              cases h
              simp [ih r ht]

theorem heapFind_append (l₁ l₂ : List (Nat × Dict)) (a : Nat) (d : Dict)
    (h : heapFind l₁ a = some d) : heapFind (l₁ ++ l₂) a = some d := by
  induction l₁ with
  | nil => cases h
  | cons e t ih =>
      simp only [heapFind] at h ⊢
      by_cases he : e.1 = a
      · simpa [he] using h
      · simp only [he, if_false] at h ⊢
        exact ih h

theorem alloc_preserves (h : Heap) (d' : Dict) (a : Nat) (d : Dict)
    (hget : h.get? a = some d) : (h.alloc d').get? a = some d := by
  simpa [Heap.get?, Heap.alloc] using heapFind_append h.store [(h.next, d')] a d hget

theorem allocAll_preserves (l : List Dict) (h : Heap) (a : Nat) (d : Dict)
    (hget : h.get? a = some d) : (allocAll h l).get? a = some d := by
  induction l generalizing h with
  | nil => exact hget
  | cons x t ih => exact ih _ (alloc_preserves h x a d hget)

theorem extractSources_of_dicts (hs : List PyVal)
    (hd : ∀ h ∈ hs, h.isDict = true) :
    extractSources hs =
      Except.ok (hs.map (fun h => h.getD "_source" (PyVal.dict []))) := by
  induction hs with
  | nil => rfl
  | cons x t ih =>
      have hx : x.isDict = true := hd x (List.mem_cons_self x t)
      have ht : ∀ h ∈ t, h.isDict = true := fun h hm => hd h (List.mem_cons_of_mem x hm)
      cases x with
      | dict es =>
          simp only [extractSources, pyGet, List.map_cons, ih ht]
          rfl
      | none => simp [PyVal.isDict] at hx
      | bool b => simp [PyVal.isDict] at hx
      | int n => simp [PyVal.isDict] at hx
      | str s => simp [PyVal.isDict] at hx
      | list xs => simp [PyVal.isDict] at hx

theorem get_os_client_cached (env : Env) (st : ProcState) (c : OpenSearch)
    (h : st.cache = some c) :
    get_os_client env st = { result := Except.ok c, proc := st, requests := [] } := by
  simp [get_os_client, h]

theorem get_os_client_cache_of_ok (env : Env) (st : ProcState) (c : OpenSearch)
    (h : (get_os_client env st).result = Except.ok c) :
    (get_os_client env st).proc.cache = some c := by
  cases hc : st.cache with
  | some c0 =>
      rw [get_os_client_cached env st c0 hc] at h ⊢
      cases h
      exact hc
  | none =>
      simp only [get_os_client, hc] at h ⊢
      cases hb : buildClient env with
      | ok c1 =>
          rw [hb] at h
          injection h with h'
          exact congrArg some h'
      | error e =>
          rw [hb] at h
          cases h

theorem get_os_client_stable (env env' : Env) (st : ProcState) (c : OpenSearch)
    (h : (get_os_client env st).result = Except.ok c) :
    get_os_client env' ((get_os_client env st).proc) =
      { result := Except.ok c, proc := (get_os_client env st).proc, requests := [] } := by
  exact get_os_client_cached env' _ c (get_os_client_cache_of_ok env st c h)

theorem resolveClient_of_falsy (arg : ClientArg) (env : Env) (st : ProcState)
    (c : OpenSearch) (hf : arg.truthy = false)
    (h : (get_os_client env st).result = Except.ok c) :
    resolveClient arg env st =
      Except.ok (ClientArg.client c, (get_os_client env st).proc) := by
  simp only [resolveClient, hf, Bool.false_eq_true, if_false]
  cases hg : get_os_client env st with
  | mk result proc requests =>
      rw [hg] at h
      simp only at h
      cases result with
      | ok c0 => cases h; rfl
      | error e => cases h

theorem resolveClient_stable (arg : ClientArg) (env : Env) (st st' : ProcState)
    (res : ClientArg)
    (h : resolveClient arg env st = Except.ok (res, st')) :
    resolveClient arg env st' = Except.ok (res, st') := by
  by_cases hf : arg.truthy = true
  · simp only [resolveClient, hf, if_true] at h ⊢
    cases h
    rfl
  · have hf' : arg.truthy = false := by simpa using hf
    simp only [resolveClient, hf', Bool.false_eq_true, if_false] at h ⊢
    cases hg : get_os_client env st with
    | mk result proc requests =>
        rw [hg] at h
        cases result with
        | ok c0 =>
            simp only at h
            cases h
            have hcache := get_os_client_cache_of_ok env st c0 (by rw [hg])
            rw [hg] at hcache
            rw [get_os_client_cached env st' c0 hcache]
        | error e => cases h

/-! ### Claims -/
/-- C1, counterexample: with `OPENSEARCH_HOST` unset (and credentials set),
`get_os_client` does not fail with a `ConfigurationError` — it succeeds,
returning a client whose host is `None`, and issues no network request. -/
theorem get_os_client_missing_host_counterexample :
    (get_os_client envNoHost { cache := Option.none }).result = Except.ok clientNoHost ∧
    isConfigErr (get_os_client envNoHost { cache := Option.none }).result = false ∧
    (get_os_client envNoHost { cache := Option.none }).requests = [] :=
  ⟨rfl, rfl, rfl⟩

/-- C1, amended: `get_os_client` performs no configuration validation at
all.  On a first call (empty cache) with the port variable unset it always
succeeds — an unset or malformed host and missing username/password flow
through as `None` into the constructed client — raises no
`ConfigurationError`, and makes no network call. -/
theorem get_os_client_no_validation (env : Env) (st : ProcState)
    (hcache : st.cache = Option.none)
    (hport : env.getenv? "OPENSEARCH_PORT" = Option.none) :
    (get_os_client env st).requests = [] ∧
    isConfigErr (get_os_client env st).result = false ∧
    (get_os_client env st).result = Except.ok
      { hosts := [{ host := env.getenv? "OPENSEARCH_HOST", port := 443 }]
        http_auth := { username := env.getenv? "OPENSEARCH_USER"
                       password := env.getenv? "OPENSEARCH_PASS" }
        use_ssl := true
        verify_certs := true
        timeout := 30 } := by
  have hb : buildClient env = Except.ok
      { hosts := [{ host := env.getenv? "OPENSEARCH_HOST", port := 443 }]
        http_auth := { username := env.getenv? "OPENSEARCH_USER"
                       password := env.getenv? "OPENSEARCH_PASS" }
        use_ssl := true
        verify_certs := true
        timeout := 30 } := by
    unfold buildClient readPort
    rw [hport]
  simp [get_os_client, hcache, hb, isConfigErr]

/-- C1 witness: the amended theorem applied to the concrete host-less
environment. -/
theorem get_os_client_no_validation_witness :
    ({ cache := Option.none } : ProcState).cache = Option.none ∧
    envNoHost.getenv? "OPENSEARCH_PORT" = Option.none ∧
    ((get_os_client envNoHost { cache := Option.none }).requests = [] ∧
     isConfigErr (get_os_client envNoHost { cache := Option.none }).result = false ∧
     (get_os_client envNoHost { cache := Option.none }).result = Except.ok
       { hosts := [{ host := envNoHost.getenv? "OPENSEARCH_HOST", port := 443 }]
         http_auth := { username := envNoHost.getenv? "OPENSEARCH_USER"
                        password := envNoHost.getenv? "OPENSEARCH_PASS" }
         use_ssl := true
         verify_certs := true
         timeout := 30 }) :=
  ⟨rfl, rfl, get_os_client_no_validation envNoHost { cache := Option.none } rfl rfl⟩

/-- C7: memoization of `get_os_client`.  If a call returns a client `c`,
any later call (even under a changed environment — the body is not rerun)
returns the identical `c`, leaves the cache untouched and issues no
request. -/
theorem get_os_client_memoized (env env' : Env) (st : ProcState) (c : OpenSearch)
    (h : (get_os_client env st).result = Except.ok c) :
    (get_os_client env' ((get_os_client env st).proc)).result = Except.ok c ∧
    (get_os_client env' ((get_os_client env st).proc)).proc = (get_os_client env st).proc ∧
    (get_os_client env' ((get_os_client env st).proc)).requests = [] := by
  rw [get_os_client_stable env env' st c h]
  exact ⟨rfl, rfl, rfl⟩

/-- C7 witness: memoization observed on the concrete sample environment. -/
theorem get_os_client_memoized_witness :
    (get_os_client envSample { cache := Option.none }).result = Except.ok clientSample ∧
    ((get_os_client envSample ((get_os_client envSample { cache := Option.none }).proc)).result
        = Except.ok clientSample ∧
     (get_os_client envSample ((get_os_client envSample { cache := Option.none }).proc)).proc
        = (get_os_client envSample { cache := Option.none }).proc ∧
     (get_os_client envSample ((get_os_client envSample { cache := Option.none }).proc)).requests
        = []) :=
  ⟨rfl, get_os_client_memoized envSample envSample { cache := Option.none } clientSample rfl⟩

theorem indexExists_after_create (svc : ServiceState) (n : String) (b : PyVal) :
    indexExists (indicesCreate svc n b) n = true := by
  simp only [indexExists, indicesCreate]
  induction svc.indices with
  | nil => simp [List.find?]
  | cons e t ih =>
      cases hbe : (e.1 == n) with
      | true => simp [List.find?_cons, hbe]
      | false => simp [List.find?_cons, hbe]

/-- C5: `create_index_if_not_exists` is idempotent.  Running it twice (the
second run from the first run's process and service state) leaves the
service state exactly as after one run, issues at most one create-index
request across both runs, and is a service-state no-op whenever the index
already exists. -/
theorem create_index_if_not_exists_idempotent
    (index_name : String) (mapping : PyVal) (client : ClientArg)
    (env : Env) (proc : ProcState) (svc : ServiceState) :
    let r1 := create_index_if_not_exists index_name mapping client env proc svc
    let r2 := create_index_if_not_exists index_name mapping client env r1.proc r1.svc
    r2.svc = r1.svc ∧
    (r1.requests ++ r2.requests).countP isCreateReq ≤ 1 ∧
    (indexExists svc index_name = true → r1.svc = svc) := by
  intro r1 r2
  cases hres : resolveClient client env proc with
  | error e =>
      have h1 : r1 =
          { ret := Except.error e, usedClient := Option.none,
            proc := proc, svc := svc, requests := [], prints := [] } := by
        simp only [r1, create_index_if_not_exists, hres]
      have h2 : r2 = r1 := by
        simp only [r2, create_index_if_not_exists, h1, hres]
      rw [h1] at h2 ⊢
      rw [h2]
      exact ⟨rfl, by simp, fun _ => rfl⟩
  | ok p =>
      obtain ⟨resolved, proc'⟩ := p
      have hres2 : resolveClient client env proc' = Except.ok (resolved, proc') :=
        resolveClient_stable client env proc proc' resolved hres
      cases ha : resolved.asClient with
      | none =>
          have h1 : r1 =
              { ret := Except.error (PyErr.attributeError "indices"),
                usedClient := Option.none, proc := proc', svc := svc,
                requests := [], prints := [] } := by
            simp only [r1, create_index_if_not_exists, hres, ha]
          have h2 : r2 = r1 := by
            simp only [r2, h1, create_index_if_not_exists, hres2, ha]
          rw [h1] at h2 ⊢
          rw [h2]
          exact ⟨rfl, by simp, fun _ => rfl⟩
      | some c =>
          by_cases hex0 : indexExists svc index_name = true
          case pos =>
            have hex : indexExists svc index_name = true := hex0
            have h1 : r1 =
                { ret := Except.ok PyVal.none, usedClient := some c,
                  proc := proc', svc := svc,
                  requests := [Request.indicesExists index_name],
                  prints := [PrintMsg.indexAlreadyExists index_name] } := by
              simp only [r1, create_index_if_not_exists, hres, ha, hex, if_true]
            have h2 : r2 = r1 := by
              simp only [r2, h1, create_index_if_not_exists, hres2, ha, hex, if_true]
            rw [h1] at h2 ⊢
            rw [h2]
            refine ⟨rfl, ?_, fun _ => rfl⟩
            simp [List.countP, List.countP.go, isCreateReq]
          case neg =>
              have hex : indexExists svc index_name = false := by
                simpa using hex0
              have h1 : r1 =
                  { ret := Except.ok PyVal.none, usedClient := some c,
                    proc := proc', svc := indicesCreate svc index_name mapping,
                    requests := [Request.indicesExists index_name,
                                 Request.indicesCreate index_name mapping],
                    prints := [PrintMsg.createdIndex index_name] } := by
                simp only [r1, create_index_if_not_exists, hres, ha, hex,
                  Bool.false_eq_true, if_false]
              have hex2 : indexExists (indicesCreate svc index_name mapping) index_name = true :=
                indexExists_after_create svc index_name mapping
              have h2 : r2 =
                  { ret := Except.ok PyVal.none, usedClient := some c,
                    proc := proc', svc := indicesCreate svc index_name mapping,
                    requests := [Request.indicesExists index_name],
                    prints := [PrintMsg.indexAlreadyExists index_name] } := by
                simp only [r2, h1, create_index_if_not_exists, hres2, ha, hex2, if_true]
              rw [h1, h2]
              refine ⟨rfl, ?_, fun hcontra => ?_⟩
              · simp [List.countP, List.countP.go, isCreateReq]
              · rw [hcontra] at hex
                cases hex

/-- C5 witness: the idempotence theorem at a concrete index, mapping,
client and an initially empty service. -/
theorem create_index_if_not_exists_idempotent_witness :
    let r1 := create_index_if_not_exists "contracts_meta" (PyVal.dict [])
      (ClientArg.client clientSample) envSample { cache := Option.none } { indices := [] }
    let r2 := create_index_if_not_exists "contracts_meta" (PyVal.dict [])
      (ClientArg.client clientSample) envSample r1.proc r1.svc
    r2.svc = r1.svc ∧
    (r1.requests ++ r2.requests).countP isCreateReq ≤ 1 ∧
    (indexExists { indices := [] } "contracts_meta" = true → r1.svc = { indices := [] }) :=
  create_index_if_not_exists_idempotent "contracts_meta" (PyVal.dict [])
    (ClientArg.client clientSample) envSample { cache := Option.none } { indices := [] }

/-- C10: every operation accepts an optional `client` and, whenever the
argument is falsy (omitted/`None`/any falsy value), substitutes the
memoized singleton from `get_os_client` as the client it contacts the
service with. -/
theorem operations_default_to_singleton_client
    (arg : ClientArg) (env : Env) (proc : ProcState) (c : OpenSearch)
    (hfalsy : arg.truthy = false)
    (hok : (get_os_client env proc).result = Except.ok c)
    (index_name : String) (mapping : PyVal) (svc : ServiceState)
    (docs : List Nat) (heap : Heap) (query_body : PyVal) (resp : PyVal)
    (size : Int) :
    (create_index_if_not_exists index_name mapping arg env proc svc).usedClient = some c ∧
    (bulk_index_metadata index_name docs arg env proc svc heap).usedClient = some c ∧
    (query_index index_name query_body arg env proc resp size).usedClient = some c := by
  have hres := resolveClient_of_falsy arg env proc c hfalsy hok
  refine ⟨?_, ?_, ?_⟩
  · simp only [create_index_if_not_exists, hres, ClientArg.asClient]
    by_cases hex : indexExists svc index_name = true
    · simp [hex]
    · simp [hex]
  · simp only [bulk_index_metadata, hres, ClientArg.asClient]
    cases hd : readDocs heap docs with
    | ok ds => simp
    | error e => simp
  · simp only [query_index, hres, ClientArg.asClient]

/-- C10 witness: the three operations at concrete arguments with the
`client` parameter omitted (`None`). -/
theorem operations_default_to_singleton_client_witness :
    ClientArg.noneV.truthy = false ∧
    (get_os_client envSample { cache := Option.none }).result = Except.ok clientSample ∧
    ((create_index_if_not_exists "contracts_meta" (PyVal.dict []) ClientArg.noneV
        envSample { cache := Option.none } { indices := [] }).usedClient = some clientSample ∧
     (bulk_index_metadata "contracts_meta" [0, 1] ClientArg.noneV
        envSample { cache := Option.none } { indices := [] } heapSample).usedClient = some clientSample ∧
     (query_index "contracts_meta" (PyVal.dict []) ClientArg.noneV
        envSample { cache := Option.none } (PyVal.dict []) 5).usedClient = some clientSample) :=
  ⟨rfl, rfl,
    operations_default_to_singleton_client ClientArg.noneV envSample
      { cache := Option.none } clientSample rfl rfl "contracts_meta" (PyVal.dict [])
      { indices := [] } [0, 1] heapSample (PyVal.dict []) (PyVal.dict []) 5⟩

theorem bulk_client_success_eq (index_name : String) (docs : List Nat)
    (c : OpenSearch) (env : Env) (proc : ProcState) (svc : ServiceState)
    (heap : Heap) (ds : List Dict) (hd : readDocs heap docs = Except.ok ds) :
    bulk_index_metadata index_name docs (ClientArg.client c) env proc svc heap =
      { ret := Except.ok PyVal.none, usedClient := some c, proc := proc,
        svc := svc, heap := allocAll heap (ds.map (buildAction index_name)),
        requests := [Request.bulk (ds.map (buildAction index_name)) true],
        prints := [PrintMsg.indexedDocs (ds.map (buildAction index_name)).length
                     index_name] } := by
  simp only [bulk_index_metadata, resolveClient, ClientArg.truthy, if_true,
    ClientArg.asClient, hd]

/-- C2, counterexample: bulk-loading two documents does not return the
count 2 — the function body has no `return`, so the call returns `None`. -/
theorem bulk_index_metadata_counterexample :
    (bulk_index_metadata "contracts_meta" [0, 1] (ClientArg.client clientSample)
        envSample { cache := Option.none } { indices := [] } heapSample).ret
      = Except.ok PyVal.none ∧
    (bulk_index_metadata "contracts_meta" [0, 1] (ClientArg.client clientSample)
        envSample { cache := Option.none } { indices := [] } heapSample).ret
      ≠ Except.ok (PyVal.int 2) := by
  refine ⟨rfl, ?_⟩
  intro hcontra
  rw [show (bulk_index_metadata "contracts_meta" [0, 1]
      (ClientArg.client clientSample) envSample { cache := Option.none }
      { indices := [] } heapSample).ret = Except.ok PyVal.none from rfl] at hcontra
  exact PyVal.noConfusion (Except.ok.inj hcontra)

/-- C2, amended: `bulk_index_metadata` on N documents submits exactly N
actions in its single bulk request and prints the count N, but returns
`None`, not the count (the function is annotated `-> None` and has no
`return` statement). -/
theorem bulk_index_metadata_submits_count_returns_none
    (index_name : String) (docs : List Nat) (c : OpenSearch) (env : Env)
    (proc : ProcState) (svc : ServiceState) (heap : Heap) (ds : List Dict)
    (hd : readDocs heap docs = Except.ok ds) :
    let r := bulk_index_metadata index_name docs (ClientArg.client c) env proc svc heap
    r.ret = Except.ok PyVal.none ∧
    r.requests = [Request.bulk (ds.map (buildAction index_name)) true] ∧
    (ds.map (buildAction index_name)).length = docs.length ∧
    r.prints = [PrintMsg.indexedDocs docs.length index_name] := by
  intro r
  have hlen : (ds.map (buildAction index_name)).length = docs.length := by
    rw [List.length_map]
    exact readDocs_length heap docs ds hd
  have he := bulk_client_success_eq index_name docs c env proc svc heap ds hd
  refine ⟨?_, ?_, hlen, ?_⟩
  · rw [show r = bulk_index_metadata index_name docs (ClientArg.client c)
        env proc svc heap from rfl, he]
  · rw [show r = bulk_index_metadata index_name docs (ClientArg.client c)
        env proc svc heap from rfl, he]
  · rw [show r = bulk_index_metadata index_name docs (ClientArg.client c)
        env proc svc heap from rfl, he, hlen]

/-- C2 witness: the amended theorem at the two concrete sample documents. -/
theorem bulk_index_metadata_submits_count_returns_none_witness :
    readDocs heapSample [0, 1] = Except.ok [docC001, docC002] ∧
    (let r := bulk_index_metadata "contracts_meta" [0, 1]
        (ClientArg.client clientSample) envSample { cache := Option.none }
        { indices := [] } heapSample
     r.ret = Except.ok PyVal.none ∧
     r.requests = [Request.bulk ([docC001, docC002].map (buildAction "contracts_meta")) true] ∧
     ([docC001, docC002].map (buildAction "contracts_meta")).length = [0, 1].length ∧
     r.prints = [PrintMsg.indexedDocs [0, 1].length "contracts_meta"]) :=
  ⟨rfl, bulk_index_metadata_submits_count_returns_none "contracts_meta" [0, 1]
      clientSample envSample { cache := Option.none } { indices := [] }
      heapSample [docC001, docC002] rfl⟩

/-- C4: all per-document operations go to the service in one single bulk
request, and that request has the synchronous refresh flag set
(`refresh=True`), one action per submitted document. -/
theorem bulk_index_metadata_single_refreshed_batch
    (index_name : String) (docs : List Nat) (c : OpenSearch) (env : Env)
    (proc : ProcState) (svc : ServiceState) (heap : Heap) (ds : List Dict)
    (hd : readDocs heap docs = Except.ok ds) :
    let r := bulk_index_metadata index_name docs (ClientArg.client c) env proc svc heap
    r.requests = [Request.bulk (ds.map (buildAction index_name)) true] ∧
    r.requests.length = 1 ∧
    (ds.map (buildAction index_name)).length = docs.length := by
  intro r
  have he := bulk_client_success_eq index_name docs c env proc svc heap ds hd
  have hr : r = bulk_index_metadata index_name docs (ClientArg.client c)
      env proc svc heap := rfl
  refine ⟨?_, ?_, ?_⟩
  · rw [hr, he]
  · rw [hr, he]
    rfl
  · rw [List.length_map]
    exact readDocs_length heap docs ds hd

/-- C4 witness: the single refreshed batch on the concrete sample data. -/
theorem bulk_index_metadata_single_refreshed_batch_witness :
    readDocs heapSample [0, 1] = Except.ok [docC001, docC002] ∧
    (let r := bulk_index_metadata "contracts_meta" [0, 1]
        (ClientArg.client clientSample) envSample { cache := Option.none }
        { indices := [] } heapSample
     r.requests = [Request.bulk ([docC001, docC002].map (buildAction "contracts_meta")) true] ∧
     r.requests.length = 1 ∧
     ([docC001, docC002].map (buildAction "contracts_meta")).length = [0, 1].length) :=
  ⟨rfl, bulk_index_metadata_single_refreshed_batch "contracts_meta" [0, 1]
      clientSample envSample { cache := Option.none } { indices := [] }
      heapSample [docC001, docC002] rfl⟩

/-- C8: the bulk loader never mutates the caller's documents: every
document object readable in the heap before the call is unchanged after it
(the action dicts are fresh allocations), on every execution path. -/
theorem bulk_index_metadata_preserves_documents
    (index_name : String) (docs : List Nat) (client : ClientArg) (env : Env)
    (proc : ProcState) (svc : ServiceState) (heap : Heap) (a : Nat) (d : Dict)
    (hget : heap.get? a = some d) :
    (bulk_index_metadata index_name docs client env proc svc heap).heap.get? a
      = some d := by
  cases hres : resolveClient client env proc with
  | error e =>
      simp only [bulk_index_metadata, hres]
      exact hget
  | ok p =>
      obtain ⟨resolved, proc'⟩ := p
      cases ha : resolved.asClient with
      | none =>
          simp only [bulk_index_metadata, hres, ha]
          exact hget
      | some c =>
          cases hdocs : readDocs heap docs with
          | error e =>
              simp only [bulk_index_metadata, hres, ha, hdocs]
              exact hget
          | ok ds =>
              simp only [bulk_index_metadata, hres, ha, hdocs]
              exact allocAll_preserves (ds.map (buildAction index_name)) heap a d hget

/-- C8 witness: the first sample document is untouched by a concrete bulk
load. -/
theorem bulk_index_metadata_preserves_documents_witness :
    heapSample.get? 0 = some docC001 ∧
    (bulk_index_metadata "contracts_meta" [0, 1] (ClientArg.client clientSample)
        envSample { cache := Option.none } { indices := [] } heapSample).heap.get? 0
      = some docC001 :=
  ⟨rfl, bulk_index_metadata_preserves_documents "contracts_meta" [0, 1]
      (ClientArg.client clientSample) envSample { cache := Option.none }
      { indices := [] } heapSample 0 docC001 rfl⟩

/-- C3, counterexample: the document `{"contract_id": "", "id": "X"}` has
`contract_id` present, yet the derived identifier is the value of `id`,
because Python `or` tests truthiness and the empty string is falsy. -/
theorem derivedId_counterexample :
    dictGet? [("contract_id", PyVal.str ""), ("id", PyVal.str "X")] "contract_id"
      = some (PyVal.str "") ∧
    derivedId [("contract_id", PyVal.str ""), ("id", PyVal.str "X")]
      = PyVal.str "X" ∧
    PyVal.str "X" ≠ PyVal.str "" := by
  refine ⟨rfl, rfl, ?_⟩
  intro h
  have hs : ("X" : String) = "" := PyVal.str.inj h
  exact absurd hs (by decide)

/-- C3, amended: the `_id` attached to a document's action (when the
document has no `_id` key of its own) is the value of `contract_id` when
that value is truthy; otherwise it is the value of `id` — whatever it is,
`None` when absent — so a present-but-falsy `contract_id` is skipped, and
when both lookups give falsy/absent values the action still carries an
`_id` whose value may be `None` (service-side assignment). -/
theorem derivedId_truthy_selection (doc : Dict) (index_name : String)
    (hid : dictGet? doc "_id" = Option.none) :
    ((dictGetD doc "contract_id" PyVal.none).truthy = true →
        derivedId doc = dictGetD doc "contract_id" PyVal.none) ∧
    ((dictGetD doc "contract_id" PyVal.none).truthy = false →
        derivedId doc = dictGetD doc "id" PyVal.none) ∧
    dictGet? (buildAction index_name doc) "_id" = some (derivedId doc) := by
  refine ⟨fun ht => ?_, fun hf => ?_, ?_⟩
  · simp [derivedId, pyOr, ht]
  · simp [derivedId, pyOr, hf]
  · unfold buildAction
    rw [dictGet_merge_absent _ doc _ hid]
    rfl

/-- C3 witness: the amended selection on the first sample document, whose
`contract_id` is the truthy string `"C-001"`. -/
theorem derivedId_truthy_selection_witness :
    dictGet? docC001 "_id" = Option.none ∧
    (((dictGetD docC001 "contract_id" PyVal.none).truthy = true →
        derivedId docC001 = dictGetD docC001 "contract_id" PyVal.none) ∧
     ((dictGetD docC001 "contract_id" PyVal.none).truthy = false →
        derivedId docC001 = dictGetD docC001 "id" PyVal.none) ∧
     dictGet? (buildAction "contracts_meta" docC001) "_id"
       = some (derivedId docC001)) :=
  ⟨rfl, derivedId_truthy_selection docC001 "contracts_meta" rfl⟩

/-- C9: document keys are unpacked into the action after the derived
control fields, so a document's own `_id`, `_index` or `_op_type` value
overrides the derived identifier, the target index argument, or the
operation type in the submitted action. -/
theorem buildAction_doc_overrides (index_name : String) (doc : Dict)
    (hnd : (doc.map Prod.fst).Nodup) :
    (∀ v, dictGet? doc "_id" = some v →
        dictGet? (buildAction index_name doc) "_id" = some v) ∧
    (∀ v, dictGet? doc "_index" = some v →
        dictGet? (buildAction index_name doc) "_index" = some v) ∧
    (∀ v, dictGet? doc "_op_type" = some v →
        dictGet? (buildAction index_name doc) "_op_type" = some v) :=
  ⟨fun v hv => dictGet_merge_present _ doc _ v hnd hv,
   fun v hv => dictGet_merge_present _ doc _ v hnd hv,
   fun v hv => dictGet_merge_present _ doc _ v hnd hv⟩

/-- C9 witness: the concrete overriding document wins on all three control
keys. -/
theorem buildAction_doc_overrides_witness :
    (docOverride.map Prod.fst).Nodup ∧
    dictGet? (buildAction "contracts_meta" docOverride) "_id"
      = some (PyVal.str "custom") ∧
    dictGet? (buildAction "contracts_meta" docOverride) "_index"
      = some (PyVal.str "other") ∧
    dictGet? (buildAction "contracts_meta" docOverride) "_op_type"
      = some (PyVal.str "delete") := by
  have hnd : (docOverride.map Prod.fst).Nodup := by decide
  exact ⟨hnd,
    (buildAction_doc_overrides "contracts_meta" docOverride hnd).1
      (PyVal.str "custom") rfl,
    (buildAction_doc_overrides "contracts_meta" docOverride hnd).2.1
      (PyVal.str "other") rfl,
    (buildAction_doc_overrides "contracts_meta" docOverride hnd).2.2
      (PyVal.str "delete") rfl⟩

theorem query_index_client_eq (index_name : String) (query_body : PyVal)
    (c : OpenSearch) (env : Env) (proc : ProcState) (resp : PyVal)
    (size : Int) :
    query_index index_name query_body (ClientArg.client c) env proc resp size =
      { ret :=
          match extractHits resp with
          | Except.error e => Except.error e
          | Except.ok hs =>
              match extractSources hs with
              | Except.error e => Except.error e
              | Except.ok ss => Except.ok (PyVal.list ss)
        usedClient := some c
        proc := proc
        requests := [Request.search index_name
          [("size", PyVal.int size), ("query", query_body)]] } := rfl

/-- C6: `query_index` submits one search request wrapping the caller's
query with the size bound (10 when the size argument is omitted) and
returns exactly the `_source` of each hit, in the service's order; with no
hits it returns the empty list, never `None`. -/
theorem query_index_extracts_sources (index_name : String) (query_body : PyVal)
    (c : OpenSearch) (env : Env) (proc : ProcState) (resp : PyVal)
    (size : Int) (hs : List PyVal)
    (hh : extractHits resp = Except.ok hs)
    (hd : ∀ h ∈ hs, h.isDict = true) :
    let r := query_index index_name query_body (ClientArg.client c) env proc resp size
    r.ret = Except.ok (PyVal.list (hs.map (fun h => h.getD "_source" (PyVal.dict [])))) ∧
    r.requests = [Request.search index_name
      [("size", PyVal.int size), ("query", query_body)]] ∧
    (hs = [] → r.ret = Except.ok (PyVal.list [])) ∧
    (query_index index_name query_body (ClientArg.client c) env proc resp).requests
      = [Request.search index_name [("size", PyVal.int 10), ("query", query_body)]] := by
  intro r
  have hr : r = query_index index_name query_body (ClientArg.client c) env proc resp size := rfl
  have h1 : r.ret
      = Except.ok (PyVal.list (hs.map (fun h => h.getD "_source" (PyVal.dict [])))) := by
    rw [hr, query_index_client_eq]
    simp only [hh, extractSources_of_dicts hs hd]
  refine ⟨h1, ?_, fun hnil => ?_, ?_⟩
  · rw [hr, query_index_client_eq]
  · rw [h1, hnil]
    rfl
  · rw [query_index_client_eq index_name query_body c env proc resp 10]

/-- C6 witness: the extraction on the concrete one-hit response. -/
theorem query_index_extracts_sources_witness :
    extractHits respSample = Except.ok [hitSample] ∧
    (∀ h ∈ [hitSample], h.isDict = true) ∧
    (let r := query_index "contracts_meta"
        (PyVal.dict [("match_phrase", PyVal.dict [("full_text", PyVal.str "indemnity")])])
        (ClientArg.client clientSample) envSample { cache := Option.none } respSample 5
     r.ret = Except.ok (PyVal.list ([hitSample].map (fun h => h.getD "_source" (PyVal.dict [])))) ∧
     r.requests = [Request.search "contracts_meta"
       [("size", PyVal.int 5),
        ("query", PyVal.dict [("match_phrase", PyVal.dict [("full_text", PyVal.str "indemnity")])])]] ∧
     ([hitSample] = ([] : List PyVal) → r.ret = Except.ok (PyVal.list [])) ∧
     (query_index "contracts_meta"
        (PyVal.dict [("match_phrase", PyVal.dict [("full_text", PyVal.str "indemnity")])])
        (ClientArg.client clientSample) envSample { cache := Option.none } respSample).requests
       = [Request.search "contracts_meta"
           [("size", PyVal.int 10),
            ("query", PyVal.dict [("match_phrase", PyVal.dict [("full_text", PyVal.str "indemnity")])])]]) := by
  have hd : ∀ h ∈ [hitSample], h.isDict = true := by
    intro h hm
    rw [List.mem_singleton] at hm
    subst hm
    rfl
  exact ⟨rfl, hd,
    query_index_extracts_sources "contracts_meta"
      (PyVal.dict [("match_phrase", PyVal.dict [("full_text", PyVal.str "indemnity")])])
      clientSample envSample { cache := Option.none } respSample 5 [hitSample] rfl hd⟩
